import Mathlib

/-
Verification of the dataset-health-checker core: a shallow embedding of the
feature-suggestion rule engine (src/src/utils/sampleData.ts, featureEngineering
section), the suggestion previewer (src/src/App.tsx, computePreviewRows) and the
cardinality-score computation (src/src/App.tsx, analysis memo).

Conventions of the embedding:
* JS numbers are modelled as exact rationals (ℚ); float rounding is out of scope.
* A JS object used as a record is an association list in insertion order;
  `Object.keys` is `List.map Prod.fst`, `Object.entries` is the list itself.
* Fallible lookups (`r[col]` on a possibly missing key) return `Option Value`.
* The prose fields of a suggestion (description, explanation, code templates)
  carry no logic and are omitted; the `example` field is kept because it
  records the chosen encoding strategy.
-/

namespace DHC

/-- A raw cell value of a row: number, string, boolean or null.  `undefined`
(absent key) is represented by `Option.none` at lookup sites. -/
inductive Value where
  | vNum (q : ℚ)
  | vStr (s : String)
  | vBool (b : Bool)
  | vNull
  deriving DecidableEq

/-- A row is an ordered mapping from column name to raw value
(`Row` in src/src/utils/analysis.ts as consumed by the engine). -/
abbrev Row := List (String × Value)

/-- Substring test on char lists: does the list start with `pat`?
Backs the model of JS `String.prototype.includes`. -/
def startsWithChars : List Char → List Char → Bool
  | [], _ => true
  | _ :: _, [] => false
  | p :: ps, c :: cs => p == c && startsWithChars ps cs

/-- Does the char list contain `pat` as a contiguous sublist? -/
def containsChars (pat : List Char) : List Char → Bool
  | [] => pat.isEmpty
  | c :: cs => startsWithChars pat (c :: cs) || containsChars pat cs

/-- Model of JS `s.includes(pat)`: substring containment. -/
def containsSub (s pat : String) : Bool :=
  containsChars pat.data s.data

/-- Model of JS `s.toLowerCase()` (character-wise lowering, which agrees with
the ASCII column names and keyword literals in play). -/
def toLowerStr (s : String) : String :=
  ⟨s.data.map Char.toLower⟩

/-- Ten-char window test for the JS regex `\d{4}-\d{2}-\d{2}` at the head of a
char list: four digits, hyphen, two digits, hyphen, two digits. -/
def dateShape : List Char → Bool
  | a :: b :: c :: d :: e :: f :: g :: h :: i :: j :: _ =>
    a.isDigit && b.isDigit && c.isDigit && d.isDigit && (e == '-') &&
      f.isDigit && g.isDigit && (h == '-') && i.isDigit && j.isDigit
  | _ => false

/-- Unanchored match of `\d{4}-\d{2}-\d{2}` anywhere in the char list. -/
def hasDateShape : List Char → Bool
  | [] => false
  | c :: rest => dateShape (c :: rest) || hasDateShape rest

/-- Model of `/\d{4}-\d{2}-\d{2}/.test(String(r[col]))` (sampleData.ts line 395).
Only string cells can match: the JS stringification of a finite number contains
at most a leading minus sign and at most one hyphen after an exponent marker,
so it never contains the digit-hyphen-digit-hyphen shape; `String(null)`,
`String(undefined)` and booleans obviously never match. -/
def dateLikeVal : Option Value → Bool
  | some (.vStr s) => hasDateShape s.data
  | _ => false

/-- JS stringification used as the grouping key of lodash `countBy`
(sampleData.ts line 335).  Caveat: non-integer rationals print as `p/q` here
while JS prints a decimal expansion; this only renames count-map keys and
cannot merge or split JS key classes for the integral values used throughout. -/
def jsKey : Option Value → String
  | none => "undefined"
  | some .vNull => "null"
  | some (.vBool b) => if b then "true" else "false"
  | some (.vStr s) => s
  | some (.vNum q) => toString q

/-- JS falsiness of a cell value (`r[col] || ''`, sampleData.ts line 355):
undefined, null, false, 0 and the empty string are falsy. -/
def jsFalsy : Option Value → Bool
  | none => true
  | some .vNull => true
  | some (.vBool b) => !b
  | some (.vNum q) => q == 0
  | some (.vStr s) => s == ""

/-- Length of `String(r[col] || '')` (sampleData.ts line 355, App.tsx line 236). -/
def displayLen (v : Option Value) : Nat :=
  if jsFalsy v then 0 else (jsKey v).length

/-- Arithmetic mean of a list of rationals (lodash `mean`); the all-zero quotient
of an empty list is never consulted by the guarded call sites. -/
def meanQ (l : List ℚ) : ℚ := l.sum / l.length

/-- Model of `Math.max(...values)` on a non-empty list (junk 0 on empty,
which every call site guards against). -/
def maxQ : List ℚ → ℚ
  | [] => 0
  | x :: xs => xs.foldl max x

/-- Model of `Math.min(...values)` on a non-empty list. -/
def minQ : List ℚ → ℚ
  | [] => 0
  | x :: xs => xs.foldl min x

/-- First occurrences of a string list in order, modelling the key order of a
JS object built by insertion (lodash `groupBy` result). -/
def firstDedup : List String → List String
  | [] => []
  | x :: xs => x :: (firstDedup xs).filter (fun y => y ≠ x)

/-- Characters before the first underscore (the whole list when there is
none). -/
def headToken : List Char → List Char
  | [] => []
  | c :: cs => if c = '_' then [] else c :: headToken cs

/-- Model of `col.split('_')[0]` (sampleData.ts line 250): the part of the
name before the first underscore. -/
def splitHead (s : String) : String := ⟨headToken s.data⟩

/-- Per-numeric-column statistics as supplied to the engine
(`numericStats` parameter; the engine only ever reads `.values`). -/
structure NumStat where
  values : List ℚ
  mean : ℚ
  std : ℚ
  deriving DecidableEq

/-- Per-categorical-column summary as supplied to the engine
(`categoricalSummary` parameter; the engine only ever reads `.unique`). -/
structure CatInfo where
  unique : Nat
  top : List (String × Nat)
  deriving DecidableEq

/-- Correlation-matrix input (`corrMatrix` parameter; destructured but never
read by the generator body). -/
structure CorrMatrix where
  columns : List String
  matrix : List (List ℚ)
  deriving DecidableEq

/-- Suggestion category (sampleData.ts line 74). -/
inductive Category where
  | numeric
  | categorical
  | datetime
  | domain
  deriving DecidableEq

/-- JS string of a category value, as interpolated into suggestion ids. -/
def Category.str : Category → String
  | .numeric => "numeric"
  | .categorical => "categorical"
  | .datetime => "datetime"
  | .domain => "domain"

/-- ComplexityLevel (sampleData.ts line 65). -/
inductive ComplexityLevel where
  | Easy
  | Moderate
  | Advanced
  deriving DecidableEq

/-- PriorityLevel (sampleData.ts line 66). -/
inductive PriorityLevel where
  | high
  | medium
  | low
  deriving DecidableEq

/-- priorityFromImpact (sampleData.ts lines 97-101). -/
def priorityFromImpact (impact : Nat) (complexity : ComplexityLevel) : PriorityLevel :=
  if 4 ≤ impact ∧ (complexity = .Easy ∨ complexity = .Moderate) then .high
  else if impact ≤ 2 then .low
  else .medium

/-- Argument of `addSuggestion`: a suggestion before id and priority assignment
(`Omit<FeatureSuggestion, 'id' | 'priority'> & { priority?: PriorityLevel }`,
sampleData.ts line 123).  Prose-only fields are omitted, see file header. -/
structure Pre where
  title : String
  exampleStr : String
  columns : List String
  category : Category
  impact : Nat
  complexity : ComplexityLevel
  priorityOverride : Option PriorityLevel
  deriving DecidableEq

/-- A finished FeatureSuggestion (sampleData.ts lines 68-84, prose fields
omitted). -/
structure Suggestion where
  id : String
  title : String
  exampleStr : String
  columns : List String
  category : Category
  priority : PriorityLevel
  impact : Nat
  complexity : ComplexityLevel
  deriving DecidableEq

/-- addSuggestion (sampleData.ts lines 123-126): push a suggestion whose id is
`{category}-{position}` with the position counted over the whole run, and whose
priority is the explicit override if given, else `priorityFromImpact`. -/
def addSuggestion (acc : List Suggestion) (s : Pre) : List Suggestion :=
  acc ++ [{ id := s.category.str ++ "-" ++ toString (acc.length + 1)
            title := s.title
            exampleStr := s.exampleStr
            columns := s.columns
            category := s.category
            priority := s.priorityOverride.getD (priorityFromImpact s.impact s.complexity)
            impact := s.impact
            complexity := s.complexity }]

/-- Summary tally of a run (sampleData.ts lines 88-93). -/
structure Summary where
  total : Nat
  high : Nat
  medium : Nat
  low : Nat
  deriving DecidableEq

/-- One step of the summary reduce (sampleData.ts lines 545-551). -/
def tallyStep (acc : Summary) (s : Suggestion) : Summary :=
  let acc := { acc with total := acc.total + 1 }
  if s.priority = .high then { acc with high := acc.high + 1 }
  else if s.priority = .medium then { acc with medium := acc.medium + 1 }
  else { acc with low := acc.low + 1 }

/-- FeatureSuggestionPayload (sampleData.ts lines 86-95). -/
structure Payload where
  suggestions : List Suggestion
  summary : Summary
  highlight : List Suggestion
  deriving DecidableEq

/-- Polynomial rule emission (sampleData.ts lines 129-149). -/
def polyPre (col : String) : Pre :=
  { title := "Polynomial features for " ++ col
    exampleStr := col ++ "² and " ++ col ++ "³ for richer signal"
    columns := [col], category := .numeric, impact := 4, complexity := .Easy
    priorityOverride := none }

/-- Binning rule emission (sampleData.ts lines 152-176; the quartiles feed only
the omitted code template). -/
def binPre (col : String) : Pre :=
  { title := "Discretize " ++ col
    exampleStr := col ++ " grouped into quartiles or business-friendly ranges"
    columns := [col], category := .numeric, impact := 3, complexity := .Easy
    priorityOverride := none }

/-- Skew-normalization rule emission (sampleData.ts lines 187-201). -/
def normalizePre (col : String) : Pre :=
  { title := "Normalize skewed " ++ col
    exampleStr := "Log-transform " ++ col ++ " to stabilize variance"
    columns := [col], category := .numeric, impact := 4, complexity := .Easy
    priorityOverride := none }

/-- Range-scaling rule emission (sampleData.ts lines 204-218). -/
def scalePre (col : String) : Pre :=
  { title := "Scale " ++ col
    exampleStr := col ++ "_zscore = (" ++ col ++ " - μ) / σ"
    columns := [col], category := .numeric, impact := 3, complexity := .Easy
    priorityOverride := none }

/-- Known-pair combination emission (sampleData.ts lines 231-245). -/
def comboPre (a b feature : String) : Pre :=
  { title := "Combine " ++ a ++ " & " ++ b
    exampleStr := "Create " ++ feature ++ " = " ++ a ++ " / " ++ b
    columns := [a, b], category := .numeric, impact := 4, complexity := .Easy
    priorityOverride := none }

/-- Prefix-aggregation emission (sampleData.ts lines 253-267). -/
def aggregatePre (p : String) (cols : List String) : Pre :=
  { title := "Aggregate " ++ p ++ " metrics"
    exampleStr := "Create average_" ++ p ++ " = mean(" ++ String.intercalate ", " cols ++ ")"
    columns := cols, category := .numeric, impact := 3, complexity := .Easy
    priorityOverride := none }

/-- Price/quantity ratio-scan emission (sampleData.ts lines 275-289). -/
def ratioPre (a b : String) : Pre :=
  { title := "Ratio " ++ a ++ "/" ++ b
    exampleStr := a ++ "_per_" ++ b
    columns := [a, b], category := .numeric, impact := 4, complexity := .Easy
    priorityOverride := none }

/-- Encoding-strategy choice by unique-value count (sampleData.ts lines
298-311; the initial `Frequency Encoding` assignment survives exactly when
every threshold test fails). -/
def encodingFor (unique : Nat) : String :=
  if unique ≤ 10 then "One-Hot Encoding"
  else if unique ≤ 20 then "Ordinal Encoding"
  else if unique ≤ 50 then "Target Encoding"
  else "Frequency Encoding"

/-- Categorical-encoding emission (sampleData.ts lines 313-333). -/
def encodePre (col : String) (unique : Nat) : Pre :=
  { title := "Encode " ++ col
    exampleStr := col ++ " → " ++ encodingFor unique
    columns := [col], category := .categorical, impact := 5
    complexity := if unique ≤ 10 then .Easy else .Moderate
    priorityOverride := none }

/-- Rare-category grouping emission (sampleData.ts lines 338-352). -/
def rarePre (col : String) : Pre :=
  { title := "Group rare " ++ col ++ " categories"
    exampleStr := "Collapse rare " ++ col ++ " categories"
    columns := [col], category := .categorical, impact := 3, complexity := .Easy
    priorityOverride := none }

/-- Text-length emission (sampleData.ts lines 357-371). -/
def lengthPre (col : String) : Pre :=
  { title := "Length feature for " ++ col
    exampleStr := col ++ "_length"
    columns := [col], category := .categorical, impact := 2, complexity := .Easy
    priorityOverride := none }

/-- Categorical-interaction emission (sampleData.ts lines 377-391). -/
def catComboPre (c1 c2 : String) : Pre :=
  { title := "Combine " ++ c1 ++ " & " ++ c2
    exampleStr := c1 ++ "_" ++ c2
    columns := [c1, c2], category := .categorical, impact := 3, complexity := .Moderate
    priorityOverride := none }

/-- Datetime component-extraction emission (sampleData.ts lines 397-411). -/
def extractPre (col : String) : Pre :=
  { title := "Extract components from " ++ col
    exampleStr := col ++ " → " ++ col ++ "_year, " ++ col ++ "_month, " ++ col ++ "_dow"
    columns := [col], category := .datetime, impact := 5, complexity := .Easy
    priorityOverride := none }

/-- Cyclical-encoding emission (sampleData.ts lines 413-427). -/
def cyclicalPre (col : String) : Pre :=
  { title := "Cyclical encoding for " ++ col
    exampleStr := col ++ "_month_sin/cos"
    columns := [col], category := .datetime, impact := 4, complexity := .Moderate
    priorityOverride := none }

/-- Datetime-interval emission (sampleData.ts lines 432-446). -/
def daysPre (d1 d2 : String) : Pre :=
  { title := "Days between " ++ d1 ++ " & " ++ d2
    exampleStr := d2 ++ "_" ++ d1 ++ "_days"
    columns := [d1, d2], category := .datetime, impact := 4, complexity := .Easy
    priorityOverride := none }

/-- E-commerce domain emission (sampleData.ts lines 454-468). -/
def ecommercePre (cols : List String) : Pre :=
  { title := "E-commerce basket insights"
    exampleStr := "discount_pct = (original_price - sale_price) / original_price"
    columns := cols, category := .domain, impact := 4, complexity := .Moderate
    priorityOverride := none }

/-- Real-estate domain emission (sampleData.ts lines 472-486). -/
def realEstatePre (cols : List String) : Pre :=
  { title := "Real estate structural ratios"
    exampleStr := "price_per_sqft = price / sqft"
    columns := cols, category := .domain, impact := 5, complexity := .Easy
    priorityOverride := none }

/-- Financial domain emission (sampleData.ts lines 490-504). -/
def financialPre (cols : List String) : Pre :=
  { title := "Financial velocity features"
    exampleStr := "monthly_transaction_count"
    columns := cols, category := .domain, impact := 4, complexity := .Advanced
    priorityOverride := none }

/-- Healthcare domain emission (sampleData.ts lines 508-523). -/
def healthcarePre (cols : List String) : Pre :=
  { title := "Healthcare BMI & age groups"
    exampleStr := "BMI = weight / (height_m^2)"
    columns := cols, category := .domain, impact := 5, complexity := .Easy
    priorityOverride := none }

/-- Rolling-metrics domain emission (sampleData.ts lines 527-541). -/
def rollingPre (cols : List String) : Pre :=
  { title := "Time-based rolling metrics"
    exampleStr := "rolling_7day_sales"
    columns := cols, category := .domain, impact := 4, complexity := .Advanced
    priorityOverride := none }

/-- Lookup in an association list of stats, `numericStats[col]`; the default is
never consulted because the loops iterate over the key list itself. -/
def lookupStat (numericStats : List (String × NumStat)) (col : String) : NumStat :=
  (numericStats.lookup col).getD ⟨[], 0, 0⟩

/-- Polynomial rule (sampleData.ts lines 129-149): numeric columns with more
than 100 distinct values.  `List.dedup` keeps late occurrences where lodash
`uniq` keeps early ones, but only the count of distinct values is consulted. -/
def polyBlock (numericStats : List (String × NumStat)) : List Pre :=
  (numericStats.map Prod.fst).flatMap fun col =>
    if 100 < ((lookupStat numericStats col).values.dedup).length then [polyPre col] else []

/-- Binning rule (sampleData.ts lines 152-176): numeric columns with more than
50 distinct values. -/
def binBlock (numericStats : List (String × NumStat)) : List Pre :=
  (numericStats.map Prod.fst).flatMap fun col =>
    if 50 < ((lookupStat numericStats col).values.dedup).length then [binPre col] else []

/-- Skewness and range-scaling rules for one column (sampleData.ts lines
179-220).  The source computes `std = Math.sqrt(variance)` and tests
`!std` and `|mean((v-avg)³)/std³| > 1`; with `std > 0` these are equivalent to
`variance = 0` and `mean((v-avg)³)² > variance³`, which avoids the irrational
square root while agreeing exactly on every real input. -/
def skewScalePres (numericStats : List (String × NumStat)) (col : String) : List Pre :=
  let values := (lookupStat numericStats col).values
  if values.length < 5 then []
  else
    let avg := meanQ values
    let variance := meanQ (values.map fun v => (v - avg) ^ 2)
    if variance = 0 then []
    else
      (if (meanQ (values.map fun v => (v - avg) ^ 3)) ^ 2 > variance ^ 3
        then [normalizePre col] else []) ++
      (if maxQ values - minQ values > 1000 then [scalePre col] else [])

/-- Skewness/scaling rules over all numeric columns. -/
def skewScaleBlock (numericStats : List (String × NumStat)) : List Pre :=
  (numericStats.map Prod.fst).flatMap (skewScalePres numericStats)

/-- The fixed combination catalogue (sampleData.ts lines 223-228; the python
template strings are omitted prose). -/
def combos : List (String × String × String) :=
  [("price", "quantity", "total_value"),
   ("distance", "time", "speed"),
   ("weight", "height", "bmi"),
   ("price", "total_price", "price_per_unit")]

/-- Known-pair combination rule (sampleData.ts lines 229-247). -/
def combosBlock (columns : List String) : List Pre :=
  combos.flatMap fun t =>
    if t.1 ∈ columns ∧ t.2.1 ∈ columns then [comboPre t.1 t.2.1 t.2.2] else []

/-- Prefix-aggregation rule (sampleData.ts lines 250-269): group numeric column
names by their first underscore-delimited token (lodash `groupBy`, entries in
first-occurrence order) and suggest an aggregate for groups of at least 3. -/
def headGroupsBlock (numericColumns : List String) : List Pre :=
  (firstDedup (numericColumns.map splitHead)).flatMap fun p =>
    let cols := numericColumns.filter fun c => splitHead c = p
    if 3 ≤ cols.length then [aggregatePre p cols] else []

/-- Ordered pairs (a, b) with a strictly before b, in the nested forEach order
of sampleData.ts lines 272-273. -/
def orderedPairs : List String → List (String × String)
  | [] => []
  | a :: rest => rest.map (fun b => (a, b)) ++ orderedPairs rest

/-- Price/quantity ratio scan (sampleData.ts lines 272-292). -/
def ratioBlock (numericColumns : List String) : List Pre :=
  (orderedPairs numericColumns).flatMap fun ab =>
    if containsSub ab.1 "price" ∧ containsSub ab.2 "quantity"
      then [ratioPre ab.1 ab.2] else []

/-- Does some value of `col` occur in fewer than 1% of the rows
(sampleData.ts lines 335-336)? -/
def rareExists (rows : List Row) (col : String) : Bool :=
  let ks := rows.map fun r => jsKey (r.lookup col)
  ks.dedup.any fun k => ((ks.count k : ℚ) / (rows.length : ℚ)) < 1 / 100

/-- Average display length of `col` over the rows (sampleData.ts line 355). -/
def avgLen (rows : List Row) (col : String) : ℚ :=
  meanQ (rows.map fun r => (displayLen (r.lookup col) : ℚ))

/-- The three per-column categorical emissions (sampleData.ts lines 295-373):
encoding recommendation, rare-category grouping, text-length feature.  A
summary key absent from the first row's columns is skipped entirely
(`if (!columns.includes(col)) return`, line 296). -/
def catPres (rows : List Row) (columns : List String) (col : String) (info : CatInfo) :
    List Pre :=
  if col ∈ columns then
    [encodePre col info.unique] ++
    (if rareExists rows col then [rarePre col] else []) ++
    (if 5 < avgLen rows col ∧ avgLen rows col < 80 then [lengthPre col] else [])
  else []

/-- Categorical rules over the whole summary (sampleData.ts lines 295-373). -/
def catBlock (rows : List Row) (columns : List String)
    (categoricalSummary : List (String × CatInfo)) : List Pre :=
  categoricalSummary.flatMap fun kv => catPres rows columns kv.1 kv.2

/-- Categorical-interaction rule (sampleData.ts lines 375-392): first two
categorical columns, when at least two exist. -/
def catComboBlock (categoricalColumns : List String) : List Pre :=
  match categoricalColumns with
  | c1 :: c2 :: _ => [catComboPre c1 c2]
  | _ => []

/-- Datetime column detection (sampleData.ts line 395). -/
def dateCols (rows : List Row) (columns : List String) : List String :=
  columns.filter fun col => rows.any fun r => dateLikeVal (r.lookup col)

/-- Datetime extraction and cyclical rules (sampleData.ts lines 396-428). -/
def dateBlock (dateColumns : List String) : List Pre :=
  dateColumns.flatMap fun col => [extractPre col, cyclicalPre col]

/-- Datetime-interval rule (sampleData.ts lines 430-447). -/
def dateIntervalBlock (dateColumns : List String) : List Pre :=
  match dateColumns with
  | d1 :: d2 :: _ => [daysPre d1 d2]
  | _ => []

/-- Keyword scan over lower-cased column names (sampleData.ts lines 450-451). -/
def containsKeyword (columns : List String) (keywords : List String) : Bool :=
  keywords.any fun kw => columns.any fun c => containsSub (toLowerStr c) kw

/-- Case-insensitive filter of columns by a disjunction of keyword literals,
modelling the `/kw1|kw2|…/i.test(c)` column filters of the domain rules. -/
def filterByKeys (columns : List String) (keys : List String) : List String :=
  columns.filter fun c => keys.any fun kw => containsSub (toLowerStr c) kw

/-- Domain-heuristic rules (sampleData.ts lines 449-524). -/
def domainBlock (columns : List String) : List Pre :=
  (if containsKeyword columns ["price", "order", "product", "customer", "quantity"]
    then [ecommercePre (filterByKeys columns ["price", "quantity", "order"])] else []) ++
  (if containsKeyword columns ["sqft", "bedroom", "bathroom", "lot", "property"]
    then [realEstatePre (filterByKeys columns ["price", "sqft", "bed", "bath", "year"])] else []) ++
  (if containsKeyword columns ["amount", "balance", "account", "transaction"]
    then [financialPre (filterByKeys columns ["amount", "transaction", "balance"])] else []) ++
  (if containsKeyword columns ["patient", "diagnosis", "treatment", "age", "symptom"]
    then [healthcarePre (filterByKeys columns ["weight", "height", "age", "symptom"])] else [])

/-- Rolling-metrics rule (sampleData.ts lines 526-542). -/
def rollingBlock (dateColumns numericColumns : List String) : List Pre :=
  if dateColumns ≠ [] ∧ numericColumns ≠ []
    then [rollingPre (dateColumns ++ numericColumns.take 2)] else []

/-- The ordered emission list of one generation run: every rule of
`generateFeatureSuggestions` (sampleData.ts lines 128-542) in source order.
No rule condition reads the suggestions accumulated so far, so the run is the
fold of `addSuggestion` over this list (see `runSuggestions`). -/
def emissions (rows : List Row) (numericStats : List (String × NumStat))
    (categoricalSummary : List (String × CatInfo)) : List Pre :=
  let columns := (rows.headD []).map Prod.fst
  let numericColumns := numericStats.map Prod.fst
  let categoricalColumns := categoricalSummary.map Prod.fst
  let dateColumns := dateCols rows columns
  polyBlock numericStats ++
  binBlock numericStats ++
  skewScaleBlock numericStats ++
  combosBlock columns ++
  headGroupsBlock numericColumns ++
  ratioBlock numericColumns ++
  catBlock rows columns categoricalSummary ++
  catComboBlock categoricalColumns ++
  dateBlock dateColumns ++
  dateIntervalBlock dateColumns ++
  domainBlock columns ++
  rollingBlock dateColumns numericColumns

/-- Accumulate the emissions through `addSuggestion` (the `suggestions.push`
calls of the source, in order). -/
def runSuggestions (pres : List Pre) : List Suggestion :=
  pres.foldl addSuggestion []

/-- generateFeatureSuggestions (sampleData.ts lines 103-556): empty-row guard,
rule battery, summary reduce (lines 545-551) and highlight slice (line 553). -/
def generateFeatureSuggestions (rows : List Row)
    (numericStats : List (String × NumStat))
    (categoricalSummary : List (String × CatInfo))
    (corrMatrix : CorrMatrix) : Payload :=
  if rows.isEmpty then
    { suggestions := [], summary := ⟨0, 0, 0, 0⟩, highlight := [] }
  else
    let suggestions := runSuggestions (emissions rows numericStats categoricalSummary)
    { suggestions := suggestions
      summary := suggestions.foldl tallyStep ⟨0, 0, 0, 0⟩
      highlight := (suggestions.filter fun s => s.priority = .high).take 3 }

/-
The suggestion previewer, computePreviewRows (App.tsx lines 191-239).
Transcendental and host-environment primitives (Math.log1p, Date parsing,
JS numeric-string parsing) have no exact rational counterpart; they are
supplied as parameters in `Ext`, and every theorem below holds for all of them.
-/

/-- External primitives of the previewer: `Math.log1p`, `new Date(v).getTime()`
and the numeric interpretation of a JS string by `Number(...)` (where `none`
plays the role of NaN).  All preview theorems are universally quantified over
this structure, so nothing depends on a particular choice. -/
structure Ext where
  log1p : ℚ → ℚ
  getTime : Option Value → ℚ
  numOfString : String → Option ℚ

/-- JS `Number(v)` on a cell value: `Number(null) = 0`, booleans map to 0/1,
numbers are themselves, `Number(undefined)` is NaN (`none`), strings go through
the host parser. -/
def toNum (ext : Ext) : Option Value → Option ℚ
  | none => none
  | some .vNull => some 0
  | some (.vBool b) => some (if b then 1 else 0)
  | some (.vNum q) => some q
  | some (.vStr s) => ext.numOfString s

/-- JS `Number(r[col]) || d`: the default replaces both NaN and 0
(the only falsy numbers modelled here; ±0 coincide in ℚ). -/
def numOr (ext : Ext) (v : Option Value) (d : ℚ) : ℚ :=
  match toNum ext v with
  | none => d
  | some q => if q = 0 then d else q

/-- Model of `+x.toFixed(2)`: round to 2 decimal places as a number.
(`Mathlib.round` is `⌊x + 1/2⌋`, which is exactly JS `Math.round`'s tie
behaviour; `toFixed` ties agree for the exact rationals modelled here.) -/
def round2 (q : ℚ) : ℚ := ((round (q * 100) : ℤ) : ℚ) / 100

/-- Three-digit zero padding for `toFixed3`. -/
def pad3 (n : Nat) : String :=
  if n < 10 then "00" ++ toString n
  else if n < 100 then "0" ++ toString n
  else toString n

/-- Model of `x.toFixed(3)` (a STRING in JS, stored as-is by the
normalize-skewed preview branch). -/
def toFixed3 (q : ℚ) : String :=
  let n : ℤ := round (q * 1000)
  (if n < 0 then "-" else "") ++ toString (n.natAbs / 1000) ++ "." ++ pad3 (n.natAbs % 1000)

/-- JS `{...r, [k]: v}`: replace the value of an existing own key in place,
else append the new key at the end; always yields a fresh mapping. -/
def setField (r : Row) (k : String) (v : Value) : Row :=
  if r.lookup k = none then r ++ [(k, v)]
  else r.map fun kv => if kv.1 = k then (k, v) else kv

/-- Insertion of a rational into a sorted list (ascending). -/
def insertQ (x : ℚ) : List ℚ → List ℚ
  | [] => [x]
  | y :: ys => if x ≤ y then x :: y :: ys else y :: insertQ x ys

/-- Model of `values.sort((a, b) => a - b)`: ascending sort. -/
def sortQ : List ℚ → List ℚ
  | [] => []
  | x :: xs => insertQ x (sortQ xs)

/-- Modelled from the spec: the `quantile` helper lives in
src/utils/analysis.ts, which is absent from the provided sources (only its
callers are).  Spec §4.4: linear-interpolation quantile over the sorted values,
position = (n−1)·q, interpolating between the floor and ceil positions. -/
def quantile (sorted : List ℚ) (q : ℚ) : ℚ :=
  let pos : ℚ := ((sorted.length : ℚ) - 1) * q
  let base : Nat := (⌊pos⌋).toNat
  let rest : ℚ := pos - (⌊pos⌋ : ℚ)
  if base + 1 < sorted.length then
    sorted.getD base 0 + rest * (sorted.getD (base + 1) 0 - sorted.getD base 0)
  else sorted.getD base 0

/-- Polynomial preview transform of one row (App.tsx lines 197-200). -/
def polyRow (ext : Ext) (primary : String) (r : Row) : Row :=
  let value := numOr ext (r.lookup primary) 0
  setField (setField r (primary ++ "_squared") (.vNum (round2 (value ^ 2))))
    (primary ++ "_cubed") (.vNum (round2 (value ^ 3)))

/-- Normalize-skewed preview transform of one row (App.tsx lines 203-206);
`toFixed(3)` without a leading `+` stores a string. -/
def logRow (ext : Ext) (primary : String) (r : Row) : Row :=
  let value := numOr ext (r.lookup primary) 0
  setField r (primary ++ "_log") (.vStr (toFixed3 (ext.log1p (max value 0))))

/-- Discretize preview transform of one row (App.tsx lines 212-216). -/
def bandRow (ext : Ext) (primary : String) (q1 q3 : ℚ) (r : Row) : Row :=
  let value := numOr ext (r.lookup primary) 0
  setField r (primary ++ "_band")
    (.vStr (if value < q1 then "Low" else if value < q3 then "Medium" else "High"))

/-- Combine preview transform of one row (App.tsx lines 220-224). -/
def combineRow (ext : Ext) (a b : String) (r : Row) : Row :=
  let va := numOr ext (r.lookup a) 0
  let vb := numOr ext (r.lookup b) 1
  setField r (a ++ "_" ++ b ++ "_ratio")
    (.vNum (round2 (va / (if vb = 0 then 1 else vb))))

/-- Days-between preview transform of one row (App.tsx lines 228-233). -/
def daysRow (ext : Ext) (d1 d2 : String) (r : Row) : Row :=
  let start := ext.getTime (r.lookup d1)
  let stop := ext.getTime (r.lookup d2)
  setField r (d2 ++ "_" ++ d1 ++ "_days")
    (.vNum ((round ((stop - start) / (1000 * 60 * 60 * 24)) : ℤ) : ℚ))

/-- Length preview transform of one row (App.tsx line 236). -/
def lenRow (primary : String) (r : Row) : Row :=
  setField r (primary ++ "_length") (.vNum (displayLen (r.lookup primary) : ℚ))

/-- computePreviewRows (App.tsx lines 191-239).  The sample is the first five
rows, shallow-copied (`{...r}`, the identity on row values); `primary` is the
first referenced column, and the empty string stands in for both a missing and
an empty (falsy) first column in the early return of line 194.  Title patterns
are matched on the lower-cased title in source order. -/
def computePreviewRows (ext : Ext) (s : Suggestion) (rows : List Row) : List Row :=
  let sample := (rows.take 5).map fun r => r
  let primary := s.columns.headD ""
  if sample.isEmpty ∨ primary = "" then sample
  else
    let t := toLowerStr s.title
    if containsSub t "polynomial" then sample.map (polyRow ext primary)
    else if containsSub t "normalize skewed" then sample.map (logRow ext primary)
    else if containsSub t "discretize" then
      let values := sortQ (sample.map fun r => numOr ext (r.lookup primary) 0)
      sample.map (bandRow ext primary (quantile values (1 / 4)) (quantile values (3 / 4)))
    else if containsSub t "combine" ∧ 2 ≤ s.columns.length then
      match s.columns with
      | a :: b :: _ => sample.map (combineRow ext a b)
      | _ => sample
    else if containsSub t "days between" ∧ 2 ≤ s.columns.length then
      match s.columns with
      | d1 :: d2 :: _ => sample.map (daysRow ext d1 d2)
      | _ => sample
    else if containsSub t "length feature" then sample.map (lenRow primary)
    else sample

/-
Heap model of the previewer, for the frame property "preview never mutates the
ingested rows".  Rows live in a store and are designated by indices; the only
store operation the source's object-literal/spread syntax can perform is
allocation of a fresh row, and the translation below makes every allocation
explicit so that the untouched-store theorem has operational content.
-/

/-- A store of row objects; an ingested row is designated by its index. -/
structure Store where
  rows : List Row
  deriving DecidableEq

/-- Dereference a row (out-of-range reads give the empty row, a case the
source never exercises). -/
def Store.read (st : Store) (i : Nat) : Row := st.rows.getD i []

/-- Allocate fresh row objects at the end of the store, returning their
references; models `.map(r => ({...r}))` and `.map(r => ({...r, k: v}))`,
each of which creates new objects and writes to no existing one. -/
def allocRows (st : Store) (rs : List Row) : Store × List Nat :=
  (⟨st.rows ++ rs⟩, (List.range rs.length).map fun i => st.rows.length + i)

/-- computePreviewRows in the heap model (App.tsx lines 191-239): the sample
copies are allocated first (line 192 runs before any branch test), then the
matched branch allocates the transformed rows; no branch writes to an
input row. -/
def computePreviewRowsH (ext : Ext) (s : Suggestion) (st : Store) (input : List Nat) :
    Store × List Nat :=
  let p := allocRows st ((input.take 5).map st.read)
  let st1 := p.1
  let sampleRefs := p.2
  let primary := s.columns.headD ""
  if sampleRefs.isEmpty ∨ primary = "" then (st1, sampleRefs)
  else
    let t := toLowerStr s.title
    if containsSub t "polynomial" then
      allocRows st1 (sampleRefs.map fun ref => polyRow ext primary (st1.read ref))
    else if containsSub t "normalize skewed" then
      allocRows st1 (sampleRefs.map fun ref => logRow ext primary (st1.read ref))
    else if containsSub t "discretize" then
      let values := sortQ (sampleRefs.map fun ref => numOr ext ((st1.read ref).lookup primary) 0)
      allocRows st1 (sampleRefs.map fun ref =>
        bandRow ext primary (quantile values (1 / 4)) (quantile values (3 / 4)) (st1.read ref))
    else if containsSub t "combine" ∧ 2 ≤ s.columns.length then
      match s.columns with
      | a :: b :: _ => allocRows st1 (sampleRefs.map fun ref => combineRow ext a b (st1.read ref))
      | _ => (st1, sampleRefs)
    else if containsSub t "days between" ∧ 2 ≤ s.columns.length then
      match s.columns with
      | d1 :: d2 :: _ => allocRows st1 (sampleRefs.map fun ref => daysRow ext d1 d2 (st1.read ref))
      | _ => (st1, sampleRefs)
    else if containsSub t "length feature" then
      allocRows st1 (sampleRefs.map fun ref => lenRow primary (st1.read ref))
    else (st1, sampleRefs)

/-
Cardinality scoring (App.tsx lines 91-92, inside the analysis memo).
-/

/-- Number of high-cardinality columns (App.tsx line 91): entries of the
categorical summary whose unique count exceeds half the row count. -/
def highCardCols (cat : List (String × CatInfo)) (rowCount : Nat) : Nat :=
  (cat.filter fun kv => (kv.2.unique : ℚ) > (rowCount : ℚ) * (1 / 2)).length

/-- cardinalityScore (App.tsx line 92):
`100 - min(100, (highCardCols / max(1, cols.length)) * 100)`. -/
def cardinalityScore (highCard colCount : Nat) : ℚ :=
  100 - min 100 (((highCard : ℚ) / ((max 1 colCount : Nat) : ℚ)) * 100)

/-
Generic lemmas about the suggestion accumulator.
-/

theorem addSuggestion_length (acc : List Suggestion) (p : Pre) :
    (addSuggestion acc p).length = acc.length + 1 := by
  simp [addSuggestion]

theorem foldl_addSuggestion_length (pres : List Pre) (acc : List Suggestion) :
    (pres.foldl addSuggestion acc).length = acc.length + pres.length := by
  induction pres generalizing acc with
  | nil => simp
  | cons p ps ih =>
      rw [List.foldl_cons, ih, addSuggestion_length, List.length_cons]; omega

theorem mem_foldl_addSuggestion_of_mem_acc (pres : List Pre) (acc : List Suggestion)
    (s : Suggestion) (hs : s ∈ acc) : s ∈ pres.foldl addSuggestion acc := by
  induction pres generalizing acc with
  | nil => exact hs
  | cons p ps ih =>
      rw [List.foldl_cons]
      exact ih _ (by simp [addSuggestion, hs])

/-- Every emission reaches the run's suggestion list with its fields copied
verbatim and its priority resolved by `addSuggestion`. -/
theorem mem_foldl_addSuggestion_of_mem (pres : List Pre) (acc : List Suggestion)
    (p : Pre) (hp : p ∈ pres) :
    ∃ s ∈ pres.foldl addSuggestion acc, s.title = p.title ∧ s.exampleStr = p.exampleStr ∧
      s.columns = p.columns ∧ s.category = p.category ∧ s.impact = p.impact ∧
      s.complexity = p.complexity ∧
      s.priority = p.priorityOverride.getD (priorityFromImpact p.impact p.complexity) := by
  induction pres generalizing acc with
  | nil => cases hp
  | cons q ps ih =>
      rw [List.foldl_cons]
      rcases List.mem_cons.mp hp with h | h
      · subst h
        refine ⟨{ id := p.category.str ++ "-" ++ toString (acc.length + 1)
                  title := p.title, exampleStr := p.exampleStr, columns := p.columns
                  category := p.category
                  priority := p.priorityOverride.getD (priorityFromImpact p.impact p.complexity)
                  impact := p.impact, complexity := p.complexity },
          mem_foldl_addSuggestion_of_mem_acc ps (addSuggestion acc p) _ ?_,
          rfl, rfl, rfl, rfl, rfl, rfl, rfl⟩
        simp [addSuggestion]
      · exact ih _ h

/-- Conversely, every suggestion of the run traces back to the accumulator or
to one emission. -/
theorem mem_foldl_addSuggestion_cases (pres : List Pre) (acc : List Suggestion)
    (s : Suggestion) (hs : s ∈ pres.foldl addSuggestion acc) :
    s ∈ acc ∨ ∃ p ∈ pres, s.title = p.title ∧ s.exampleStr = p.exampleStr ∧
      s.columns = p.columns ∧ s.category = p.category ∧ s.impact = p.impact ∧
      s.complexity = p.complexity ∧
      s.priority = p.priorityOverride.getD (priorityFromImpact p.impact p.complexity) := by
  induction pres generalizing acc with
  | nil => exact Or.inl hs
  | cons q ps ih =>
      rw [List.foldl_cons] at hs
      rcases ih _ hs with h | ⟨p, hp, hrest⟩
      · simp only [addSuggestion, List.mem_append, List.mem_singleton] at h
        rcases h with h | h
        · exact Or.inl h
        · subst h
          exact Or.inr ⟨q, by simp, rfl, rfl, rfl, rfl, rfl, rfl, rfl⟩
      · exact Or.inr ⟨p, by simp [hp], hrest⟩

/-- Titlewise count transport through the run: the number of suggestions with a
given title equals the number of emissions with that title. -/
theorem countP_foldl_addSuggestion (pres : List Pre) (acc : List Suggestion) (T : String) :
    (pres.foldl addSuggestion acc).countP (fun s => s.title == T)
      = acc.countP (fun s => s.title == T) + pres.countP (fun p => p.title == T) := by
  induction pres generalizing acc with
  | nil => simp
  | cons p ps ih =>
      rw [List.foldl_cons, ih]
      simp only [addSuggestion, List.countP_append, List.countP_cons, List.countP_nil]
      omega

/-- Id/position invariant of the fold: the i-th suggestion of the run carries
the id `{its own category}-{i+1}`. -/
theorem foldl_addSuggestion_id (pres : List Pre) (acc : List Suggestion)
    (hacc : ∀ i (h : i < acc.length),
      (acc.get ⟨i, h⟩).id = (acc.get ⟨i, h⟩).category.str ++ "-" ++ toString (i + 1)) :
    ∀ i (h : i < (pres.foldl addSuggestion acc).length),
      ((pres.foldl addSuggestion acc).get ⟨i, h⟩).id
        = ((pres.foldl addSuggestion acc).get ⟨i, h⟩).category.str ++ "-" ++ toString (i + 1) := by
  induction pres generalizing acc with
  | nil => exact hacc
  | cons p ps ih =>
      refine ih (addSuggestion acc p) ?_
      intro j hj
      have hj2 : j < acc.length + 1 := by simpa [addSuggestion_length] using hj
      simp only [List.get_eq_getElem, addSuggestion]
      by_cases hlt : j < acc.length
      · rw [List.getElem_append_left hlt]
        have := hacc j hlt
        simpa [List.get_eq_getElem] using this
      · have hje : j = acc.length := by omega
        subst hje
        rw [List.getElem_append_right (Nat.le_refl _)]
        simp

/-- The summary reduce (sampleData.ts lines 545-551) computed in closed form:
total counts every suggestion, and each priority bucket counts exactly the
suggestions carrying that priority. -/
theorem foldl_tallyStep (sugs : List Suggestion) (acc : Summary) :
    sugs.foldl tallyStep acc
      = ⟨acc.total + sugs.length,
         acc.high + sugs.countP (fun s => decide (s.priority = .high)),
         acc.medium + sugs.countP (fun s => decide (s.priority = .medium)),
         acc.low + sugs.countP (fun s => decide (s.priority = .low))⟩ := by
  induction sugs generalizing acc with
  | nil => simp
  | cons s ss ih =>
      rw [List.foldl_cons, ih]
      rcases hs : s.priority <;>
        simp [tallyStep, hs, List.countP_cons, Summary.mk.injEq] <;> omega

/-- The three priority buckets partition any suggestion list. -/
theorem countP_priority_partitions (l : List Suggestion) :
    l.countP (fun s => decide (s.priority = .high))
      + l.countP (fun s => decide (s.priority = .medium))
      + l.countP (fun s => decide (s.priority = .low)) = l.length := by
  induction l with
  | nil => rfl
  | cons s ss ih =>
      rcases hs : s.priority <;> simp [List.countP_cons, hs] <;> omega

/-
Shape lemmas: every element of each rule block is an application of that
block's emission constructor.
-/

/-- Membership in a conditional singleton-or-empty list forces the element. -/
theorem mem_ite_nil {α} {c : Prop} [Decidable c] {l : List α} {x : α}
    (h : x ∈ if c then l else []) : x ∈ l := by
  by_cases hc : c
  · simpa [hc] using h
  · simp [hc] at h

theorem polyBlock_shape (ns : List (String × NumStat)) (p : Pre)
    (hp : p ∈ polyBlock ns) : ∃ c, p = polyPre c := by
  simp only [polyBlock, List.mem_flatMap] at hp
  obtain ⟨c, -, hc⟩ := hp
  exact ⟨c, by simpa using mem_ite_nil hc⟩

theorem binBlock_shape (ns : List (String × NumStat)) (p : Pre)
    (hp : p ∈ binBlock ns) : ∃ c, p = binPre c := by
  simp only [binBlock, List.mem_flatMap] at hp
  obtain ⟨c, -, hc⟩ := hp
  exact ⟨c, by simpa using mem_ite_nil hc⟩

theorem skewScaleBlock_shape (ns : List (String × NumStat)) (p : Pre)
    (hp : p ∈ skewScaleBlock ns) : ∃ c, p = normalizePre c ∨ p = scalePre c := by
  simp only [skewScaleBlock, List.mem_flatMap] at hp
  obtain ⟨c, -, hc⟩ := hp
  refine ⟨c, ?_⟩
  unfold skewScalePres at hc
  dsimp only at hc
  split at hc
  · cases hc
  · split at hc
    · cases hc
    · rcases List.mem_append.mp hc with h | h
      · exact Or.inl (by simpa using mem_ite_nil h)
      · exact Or.inr (by simpa using mem_ite_nil h)

theorem combosBlock_shape (columns : List String) (p : Pre)
    (hp : p ∈ combosBlock columns) : ∃ a b f, p = comboPre a b f := by
  simp only [combosBlock, List.mem_flatMap] at hp
  obtain ⟨t, -, ht⟩ := hp
  exact ⟨t.1, t.2.1, t.2.2, by simpa using mem_ite_nil ht⟩

theorem headGroupsBlock_shape (numericColumns : List String) (p : Pre)
    (hp : p ∈ headGroupsBlock numericColumns) : ∃ a cols, p = aggregatePre a cols := by
  simp only [headGroupsBlock, List.mem_flatMap] at hp
  obtain ⟨g, -, hg⟩ := hp
  exact ⟨g, _, by simpa using mem_ite_nil hg⟩

theorem ratioBlock_shape (numericColumns : List String) (p : Pre)
    (hp : p ∈ ratioBlock numericColumns) : ∃ a b, p = ratioPre a b := by
  simp only [ratioBlock, List.mem_flatMap] at hp
  obtain ⟨ab, -, hab⟩ := hp
  exact ⟨ab.1, ab.2, by simpa using mem_ite_nil hab⟩

theorem catPres_shape (rows : List Row) (columns : List String) (c : String)
    (info : CatInfo) (p : Pre) (hp : p ∈ catPres rows columns c info) :
    p = encodePre c info.unique ∨ p = rarePre c ∨ p = lengthPre c := by
  unfold catPres at hp
  split at hp
  · rcases List.mem_append.mp hp with h | h
    · rcases List.mem_append.mp h with h1 | h1
      · exact Or.inl (by simpa using h1)
      · exact Or.inr (Or.inl (by simpa using mem_ite_nil h1))
    · exact Or.inr (Or.inr (by simpa using mem_ite_nil h))
  · cases hp

theorem catBlock_shape (rows : List Row) (columns : List String)
    (cs : List (String × CatInfo)) (p : Pre) (hp : p ∈ catBlock rows columns cs) :
    ∃ c u, p = encodePre c u ∨ p = rarePre c ∨ p = lengthPre c := by
  simp only [catBlock, List.mem_flatMap] at hp
  obtain ⟨kv, -, hkv⟩ := hp
  exact ⟨kv.1, kv.2.unique, catPres_shape _ _ _ _ _ hkv⟩

theorem catComboBlock_shape (cols : List String) (p : Pre)
    (hp : p ∈ catComboBlock cols) : ∃ a b, p = catComboPre a b := by
  unfold catComboBlock at hp
  split at hp
  · exact ⟨_, _, by simpa using hp⟩
  · cases hp

theorem dateBlock_shape (dateColumns : List String) (p : Pre)
    (hp : p ∈ dateBlock dateColumns) : ∃ c, p = extractPre c ∨ p = cyclicalPre c := by
  simp only [dateBlock, List.mem_flatMap] at hp
  obtain ⟨c, -, hc⟩ := hp
  simp only [List.mem_cons, List.mem_singleton, List.not_mem_nil] at hc
  rcases hc with h | h | h
  · exact ⟨c, Or.inl h⟩
  · exact ⟨c, Or.inr h⟩
  · exact h.elim

theorem dateIntervalBlock_shape (dateColumns : List String) (p : Pre)
    (hp : p ∈ dateIntervalBlock dateColumns) : ∃ a b, p = daysPre a b := by
  unfold dateIntervalBlock at hp
  split at hp
  · exact ⟨_, _, by simpa using hp⟩
  · cases hp

theorem domainBlock_shape (columns : List String) (p : Pre)
    (hp : p ∈ domainBlock columns) :
    ∃ cols, p = ecommercePre cols ∨ p = realEstatePre cols ∨
      p = financialPre cols ∨ p = healthcarePre cols := by
  unfold domainBlock at hp
  rcases List.mem_append.mp hp with h | h
  · rcases List.mem_append.mp h with h1 | h1
    · rcases List.mem_append.mp h1 with h2 | h2
      · exact ⟨_, Or.inl (by simpa using mem_ite_nil h2)⟩
      · exact ⟨_, Or.inr (Or.inl (by simpa using mem_ite_nil h2))⟩
    · exact ⟨_, Or.inr (Or.inr (Or.inl (by simpa using mem_ite_nil h1)))⟩
  · exact ⟨_, Or.inr (Or.inr (Or.inr (by simpa using mem_ite_nil h)))⟩

theorem rollingBlock_shape (dateColumns numericColumns : List String) (p : Pre)
    (hp : p ∈ rollingBlock dateColumns numericColumns) : ∃ cols, p = rollingPre cols := by
  unfold rollingBlock at hp
  exact ⟨_, by simpa using mem_ite_nil hp⟩

/-- Every emission of a run is an application of one of the 19 emission
constructors, each of which leaves the priority override unset (no call site of
`addSuggestion` in the source passes an explicit priority). -/
theorem emissions_override_none (rows : List Row) (ns : List (String × NumStat))
    (cs : List (String × CatInfo)) :
    ∀ p ∈ emissions rows ns cs, p.priorityOverride = none := by
  intro p hp
  simp only [emissions, List.append_assoc, List.mem_append] at hp
  rcases hp with h | h | h | h | h | h | h | h | h | h | h | h
  · obtain ⟨c, rfl⟩ := polyBlock_shape _ _ h; rfl
  · obtain ⟨c, rfl⟩ := binBlock_shape _ _ h; rfl
  · obtain ⟨c, h | h⟩ := skewScaleBlock_shape _ _ h <;> subst h <;> rfl
  · obtain ⟨a, b, f, rfl⟩ := combosBlock_shape _ _ h; rfl
  · obtain ⟨a, cols, rfl⟩ := headGroupsBlock_shape _ _ h; rfl
  · obtain ⟨a, b, rfl⟩ := ratioBlock_shape _ _ h; rfl
  · obtain ⟨c, u, h | h | h⟩ := catBlock_shape _ _ _ _ h <;> subst h <;> rfl
  · obtain ⟨a, b, rfl⟩ := catComboBlock_shape _ _ h; rfl
  · obtain ⟨c, h | h⟩ := dateBlock_shape _ _ h <;> subst h <;> rfl
  · obtain ⟨a, b, rfl⟩ := dateIntervalBlock_shape _ _ h; rfl
  · obtain ⟨cols, h | h | h | h⟩ := domainBlock_shape _ _ h <;> subst h <;> rfl
  · obtain ⟨cols, rfl⟩ := rollingBlock_shape _ _ _ h; rfl

/-
String helpers: distinguishing rule titles by their first characters.
-/

theorem string_data_inj {a b : String} (h : a.data = b.data) : a = b := by
  cases a; cases b; exact congrArg String.mk h

theorem ne_of_take3 {s t : String} (h : s.data.take 3 ≠ t.data.take 3) : s ≠ t :=
  fun hst => h (congrArg (fun x : String => x.data.take 3) hst)

theorem take_append_of_le_len {α} :
    ∀ (n : Nat) (l₁ l₂ : List α), n ≤ l₁.length → (l₁ ++ l₂).take n = l₁.take n
  | 0, _, _, _ => rfl
  | n + 1, a :: l₁, l₂, h => by
      simp only [List.cons_append, List.take_succ_cons]
      rw [take_append_of_le_len n l₁ l₂ (Nat.le_of_succ_le_succ h)]
  | n + 1, [], _, h => by cases h

theorem three_le_len_append (a u : String) (h : 3 ≤ a.data.length) :
    3 ≤ (a ++ u).data.length := by
  rw [String.data_append, List.length_append]; omega

theorem data_take3_append (a u : String) (h : 3 ≤ a.data.length) :
    (a ++ u).data.take 3 = a.data.take 3 := by
  rw [String.data_append, take_append_of_le_len 3 _ _ h]

/-- Appending to a common head string is injective on the tail. -/
theorem append_right_inj_str {a u v : String} (h : a ++ u = a ++ v) : u = v := by
  have hd : a.data ++ u.data = a.data ++ v.data := by
    have := congrArg String.data h
    simpa [String.data_append] using this
  exact string_data_inj (List.append_cancel_left hd)

theorem encode_title_eq_iff (c col : String) :
    ("Encode " ++ c = "Encode " ++ col) ↔ c = col :=
  ⟨fun h => append_right_inj_str h, fun h => by rw [h]⟩

theorem rarePre_title_ne_encode (c col : String) :
    (rarePre c).title ≠ "Encode " ++ col := by
  show "Group rare " ++ c ++ " categories" ≠ "Encode " ++ col
  apply ne_of_take3
  rw [data_take3_append _ _ (three_le_len_append "Group rare " c (by decide)),
    data_take3_append _ _ (by decide), data_take3_append _ _ (by decide)]
  decide

theorem lengthPre_title_ne_encode (c col : String) :
    (lengthPre c).title ≠ "Encode " ++ col := by
  show "Length feature for " ++ c ≠ "Encode " ++ col
  apply ne_of_take3
  rw [data_take3_append _ _ (by decide), data_take3_append _ _ (by decide)]
  decide

theorem polyPre_title_ne_encode (c col : String) :
    (polyPre c).title ≠ "Encode " ++ col := by
  show "Polynomial features for " ++ c ≠ "Encode " ++ col
  apply ne_of_take3
  rw [data_take3_append _ _ (by decide), data_take3_append _ _ (by decide)]
  decide

theorem binPre_title_ne_encode (c col : String) :
    (binPre c).title ≠ "Encode " ++ col := by
  show "Discretize " ++ c ≠ "Encode " ++ col
  apply ne_of_take3
  rw [data_take3_append _ _ (by decide), data_take3_append _ _ (by decide)]
  decide

theorem normalizePre_title_ne_encode (c col : String) :
    (normalizePre c).title ≠ "Encode " ++ col := by
  show "Normalize skewed " ++ c ≠ "Encode " ++ col
  apply ne_of_take3
  rw [data_take3_append _ _ (by decide), data_take3_append _ _ (by decide)]
  decide

theorem scalePre_title_ne_encode (c col : String) :
    (scalePre c).title ≠ "Encode " ++ col := by
  show "Scale " ++ c ≠ "Encode " ++ col
  apply ne_of_take3
  rw [data_take3_append _ _ (by decide), data_take3_append _ _ (by decide)]
  decide

theorem comboPre_title_ne_encode (a b f col : String) :
    (comboPre a b f).title ≠ "Encode " ++ col := by
  show "Combine " ++ a ++ " & " ++ b ≠ "Encode " ++ col
  apply ne_of_take3
  rw [data_take3_append _ _
      (three_le_len_append _ _ (three_le_len_append "Combine " a (by decide))),
    data_take3_append _ _ (three_le_len_append "Combine " a (by decide)),
    data_take3_append _ _ (by decide), data_take3_append _ _ (by decide)]
  decide

theorem aggregatePre_title_ne_encode (a : String) (cols : List String) (col : String) :
    (aggregatePre a cols).title ≠ "Encode " ++ col := by
  show "Aggregate " ++ a ++ " metrics" ≠ "Encode " ++ col
  apply ne_of_take3
  rw [data_take3_append _ _ (three_le_len_append "Aggregate " a (by decide)),
    data_take3_append _ _ (by decide), data_take3_append _ _ (by decide)]
  decide

theorem ratioPre_title_ne_encode (a b col : String) :
    (ratioPre a b).title ≠ "Encode " ++ col := by
  show "Ratio " ++ a ++ "/" ++ b ≠ "Encode " ++ col
  apply ne_of_take3
  rw [data_take3_append _ _
      (three_le_len_append _ _ (three_le_len_append "Ratio " a (by decide))),
    data_take3_append _ _ (three_le_len_append "Ratio " a (by decide)),
    data_take3_append _ _ (by decide), data_take3_append _ _ (by decide)]
  decide

theorem catComboPre_title_ne_encode (a b col : String) :
    (catComboPre a b).title ≠ "Encode " ++ col := by
  show "Combine " ++ a ++ " & " ++ b ≠ "Encode " ++ col
  apply ne_of_take3
  rw [data_take3_append _ _
      (three_le_len_append _ _ (three_le_len_append "Combine " a (by decide))),
    data_take3_append _ _ (three_le_len_append "Combine " a (by decide)),
    data_take3_append _ _ (by decide), data_take3_append _ _ (by decide)]
  decide

theorem extractPre_title_ne_encode (c col : String) :
    (extractPre c).title ≠ "Encode " ++ col := by
  show "Extract components from " ++ c ≠ "Encode " ++ col
  apply ne_of_take3
  rw [data_take3_append _ _ (by decide), data_take3_append _ _ (by decide)]
  decide

theorem cyclicalPre_title_ne_encode (c col : String) :
    (cyclicalPre c).title ≠ "Encode " ++ col := by
  show "Cyclical encoding for " ++ c ≠ "Encode " ++ col
  apply ne_of_take3
  rw [data_take3_append _ _ (by decide), data_take3_append _ _ (by decide)]
  decide

theorem daysPre_title_ne_encode (a b col : String) :
    (daysPre a b).title ≠ "Encode " ++ col := by
  show "Days between " ++ a ++ " & " ++ b ≠ "Encode " ++ col
  apply ne_of_take3
  rw [data_take3_append _ _
      (three_le_len_append _ _ (three_le_len_append "Days between " a (by decide))),
    data_take3_append _ _ (three_le_len_append "Days between " a (by decide)),
    data_take3_append _ _ (by decide), data_take3_append _ _ (by decide)]
  decide

theorem ecommercePre_title_ne_encode (cols : List String) (col : String) :
    (ecommercePre cols).title ≠ "Encode " ++ col := by
  show "E-commerce basket insights" ≠ "Encode " ++ col
  apply ne_of_take3
  rw [data_take3_append _ _ (by decide)]
  decide

theorem realEstatePre_title_ne_encode (cols : List String) (col : String) :
    (realEstatePre cols).title ≠ "Encode " ++ col := by
  show "Real estate structural ratios" ≠ "Encode " ++ col
  apply ne_of_take3
  rw [data_take3_append _ _ (by decide)]
  decide

theorem financialPre_title_ne_encode (cols : List String) (col : String) :
    (financialPre cols).title ≠ "Encode " ++ col := by
  show "Financial velocity features" ≠ "Encode " ++ col
  apply ne_of_take3
  rw [data_take3_append _ _ (by decide)]
  decide

theorem healthcarePre_title_ne_encode (cols : List String) (col : String) :
    (healthcarePre cols).title ≠ "Encode " ++ col := by
  show "Healthcare BMI & age groups" ≠ "Encode " ++ col
  apply ne_of_take3
  rw [data_take3_append _ _ (by decide)]
  decide

theorem rollingPre_title_ne_encode (cols : List String) (col : String) :
    (rollingPre cols).title ≠ "Encode " ++ col := by
  show "Time-based rolling metrics" ≠ "Encode " ++ col
  apply ne_of_take3
  rw [data_take3_append _ _ (by decide)]
  decide

/-
Counting lemmas for the categorical-encoding rule.
-/

theorem countP_title_zero (l : List Pre) (col : String)
    (h : ∀ p ∈ l, p.title ≠ "Encode " ++ col) :
    l.countP (fun p => p.title == "Encode " ++ col) = 0 := by
  rw [List.countP_eq_zero]
  intro p hp
  simpa [beq_iff_eq] using h p hp

/-- The per-column categorical emissions contain exactly one suggestion titled
`Encode {col}` when the iterated column is `col` and survives the
first-row-columns guard, and none otherwise. -/
theorem countP_catPres (rows : List Row) (columns : List String) (c : String)
    (info : CatInfo) (col : String) :
    (catPres rows columns c info).countP (fun p => p.title == "Encode " ++ col)
      = if c = col ∧ c ∈ columns then 1 else 0 := by
  unfold catPres
  by_cases hmem : c ∈ columns
  · rw [if_pos hmem]
    have hrare : (if rareExists rows c then [rarePre c] else ([] : List Pre)).countP
        (fun p => p.title == "Encode " ++ col) = 0 := by
      split
      · simp [List.countP_cons, beq_iff_eq, rarePre_title_ne_encode c col]
      · rfl
    have hlen : (if 5 < avgLen rows c ∧ avgLen rows c < 80 then [lengthPre c]
        else ([] : List Pre)).countP (fun p => p.title == "Encode " ++ col) = 0 := by
      split
      · simp [List.countP_cons, beq_iff_eq, lengthPre_title_ne_encode c col]
      · rfl
    rw [List.countP_append, List.countP_append, hrare, hlen]
    by_cases hc : c = col
    · subst hc
      simp [List.countP_cons, beq_iff_eq, encodePre, hmem]
    · have : (encodePre c info.unique).title ≠ "Encode " ++ col := by
        show "Encode " ++ c ≠ "Encode " ++ col
        exact fun h => hc ((encode_title_eq_iff c col).mp h)
      simp [List.countP_cons, beq_iff_eq, this, hc]
  · rw [if_neg hmem, if_neg (fun h => hmem h.2)]
    rfl

theorem countP_catBlock_zero (rows : List Row) (columns : List String)
    (cs : List (String × CatInfo)) (col : String)
    (hnot : col ∉ cs.map Prod.fst) :
    (catBlock rows columns cs).countP (fun p => p.title == "Encode " ++ col) = 0 := by
  induction cs with
  | nil => rfl
  | cons kv rest ih =>
      have h1 : kv.1 ≠ col := by
        intro he
        exact hnot (by simp [← he])
      have h2 : col ∉ rest.map Prod.fst := fun h => hnot (by simp [h])
      simp only [catBlock, List.flatMap_cons, List.countP_append]
      rw [countP_catPres, if_neg (fun h => h1 h.1)]
      simpa [catBlock] using ih h2

/-- Exactly one `Encode {col}` emission arises from the categorical block when
`col` is a key of the summary (keys unique, as for any JS record) and a column
of the first row. -/
theorem countP_catBlock_one (rows : List Row) (columns : List String)
    (cs : List (String × CatInfo)) (col : String)
    (hnd : (cs.map Prod.fst).Nodup) (hmem : col ∈ cs.map Prod.fst)
    (hcol : col ∈ columns) :
    (catBlock rows columns cs).countP (fun p => p.title == "Encode " ++ col) = 1 := by
  induction cs with
  | nil => cases hmem
  | cons kv rest ih =>
      have hnd' : kv.1 ∉ rest.map Prod.fst ∧ (rest.map Prod.fst).Nodup := by
        rw [List.map_cons, List.nodup_cons] at hnd; exact hnd
      simp only [catBlock, List.flatMap_cons, List.countP_append]
      by_cases hk : kv.1 = col
      · rw [countP_catPres, if_pos ⟨hk, hk ▸ hcol⟩]
        have : col ∉ rest.map Prod.fst := hk ▸ hnd'.1
        rw [show (rest.flatMap fun kv => catPres rows columns kv.1 kv.2)
            = catBlock rows columns rest from rfl,
          countP_catBlock_zero rows columns rest col this]
      · rw [countP_catPres, if_neg (fun h => hk h.1)]
        have hmem2 : col = kv.1 ∨ col ∈ rest.map Prod.fst := by
          rw [List.map_cons, List.mem_cons] at hmem; exact hmem
        have hmem' : col ∈ rest.map Prod.fst := by
          rcases hmem2 with h | h
          · exact absurd h.symm hk
          · exact h
        simpa [catBlock] using ih hnd'.2 hmem'

/-- Every `Encode`-titled emission of the non-categorical blocks is impossible:
their titles all start differently. -/
theorem countP_emissions_encode (rows : List Row) (ns : List (String × NumStat))
    (cs : List (String × CatInfo)) (col : String)
    (hnd : (cs.map Prod.fst).Nodup) (hmem : col ∈ cs.map Prod.fst)
    (hcol : col ∈ (rows.headD []).map Prod.fst) :
    (emissions rows ns cs).countP (fun p => p.title == "Encode " ++ col) = 1 := by
  unfold emissions
  simp only [List.countP_append]
  rw [countP_title_zero (polyBlock ns) col (fun p hp => by
      obtain ⟨c, rfl⟩ := polyBlock_shape _ _ hp; exact polyPre_title_ne_encode c col),
    countP_title_zero (binBlock ns) col (fun p hp => by
      obtain ⟨c, rfl⟩ := binBlock_shape _ _ hp; exact binPre_title_ne_encode c col),
    countP_title_zero (skewScaleBlock ns) col (fun p hp => by
      obtain ⟨c, h | h⟩ := skewScaleBlock_shape _ _ hp <;> subst h
      · exact normalizePre_title_ne_encode c col
      · exact scalePre_title_ne_encode c col),
    countP_title_zero (combosBlock _) col (fun p hp => by
      obtain ⟨a, b, f, rfl⟩ := combosBlock_shape _ _ hp; exact comboPre_title_ne_encode a b f col),
    countP_title_zero (headGroupsBlock _) col (fun p hp => by
      obtain ⟨a, cols, rfl⟩ := headGroupsBlock_shape _ _ hp
      exact aggregatePre_title_ne_encode a cols col),
    countP_title_zero (ratioBlock _) col (fun p hp => by
      obtain ⟨a, b, rfl⟩ := ratioBlock_shape _ _ hp; exact ratioPre_title_ne_encode a b col),
    countP_title_zero (catComboBlock _) col (fun p hp => by
      obtain ⟨a, b, rfl⟩ := catComboBlock_shape _ _ hp; exact catComboPre_title_ne_encode a b col),
    countP_title_zero (dateBlock _) col (fun p hp => by
      obtain ⟨c, h | h⟩ := dateBlock_shape _ _ hp <;> subst h
      · exact extractPre_title_ne_encode c col
      · exact cyclicalPre_title_ne_encode c col),
    countP_title_zero (dateIntervalBlock _) col (fun p hp => by
      obtain ⟨a, b, rfl⟩ := dateIntervalBlock_shape _ _ hp; exact daysPre_title_ne_encode a b col),
    countP_title_zero (domainBlock _) col (fun p hp => by
      obtain ⟨cols, h | h | h | h⟩ := domainBlock_shape _ _ hp <;> subst h
      · exact ecommercePre_title_ne_encode cols col
      · exact realEstatePre_title_ne_encode cols col
      · exact financialPre_title_ne_encode cols col
      · exact healthcarePre_title_ne_encode cols col),
    countP_title_zero (rollingBlock _ _) col (fun p hp => by
      obtain ⟨cols, rfl⟩ := rollingBlock_shape _ _ _ hp; exact rollingPre_title_ne_encode cols col),
    countP_catBlock_one rows _ cs col hnd hmem hcol]

/-
Association-list lookup and list-arithmetic facts.
-/

theorem lookup_eq_of_mem {β : Type} (l : List (String × β)) (k : String) (v : β)
    (hnd : (l.map Prod.fst).Nodup) (hm : (k, v) ∈ l) : l.lookup k = some v := by
  induction l with
  | nil => cases hm
  | cons kv rest ih =>
      obtain ⟨k1, v1⟩ := kv
      have hnd' : k1 ∉ rest.map Prod.fst ∧ (rest.map Prod.fst).Nodup := by
        rw [List.map_cons, List.nodup_cons] at hnd; exact hnd
      rcases List.mem_cons.mp hm with h | h
      · obtain ⟨rfl, rfl⟩ := Prod.mk.injEq .. ▸ h
        simp [List.lookup]
      · have hk : k ≠ k1 := by
          intro he
          subst he
          exact hnd'.1 (List.mem_map.mpr ⟨(k, v), h, rfl⟩)
        have hkb : (k == k1) = false := by simpa using hk
        simp only [List.lookup, hkb]
        exact ih hnd'.2 h

theorem list_sum_sq_zero (l : List ℚ) (hs : l.sum = 0) (h0 : ∀ x ∈ l, 0 ≤ x) :
    ∀ x ∈ l, x = 0 := by
  induction l with
  | nil => intro x hx; cases hx
  | cons a t ih =>
      have hta : 0 ≤ a := h0 a (by simp)
      have htt : 0 ≤ t.sum := List.sum_nonneg (fun x hx => h0 x (by simp [hx]))
      have hsum : a + t.sum = 0 := by simpa using hs
      have ha : a = 0 := by linarith
      have ht : t.sum = 0 := by linarith
      intro x hx
      rcases List.mem_cons.mp hx with h | h
      · exact h ▸ ha
      · exact ih ht (fun y hy => h0 y (by simp [hy])) x h

theorem foldl_max_all_eq (xs : List ℚ) (x c : ℚ) (hx : x = c)
    (hall : ∀ y ∈ xs, y = c) : xs.foldl max x = c := by
  induction xs generalizing x with
  | nil => exact hx
  | cons a t ih =>
      rw [List.foldl_cons]
      exact ih _ (by rw [hx, hall a (by simp)]; exact max_self c)
        (fun y hy => hall y (by simp [hy]))

theorem foldl_min_all_eq (xs : List ℚ) (x c : ℚ) (hx : x = c)
    (hall : ∀ y ∈ xs, y = c) : xs.foldl min x = c := by
  induction xs generalizing x with
  | nil => exact hx
  | cons a t ih =>
      rw [List.foldl_cons]
      exact ih _ (by rw [hx, hall a (by simp)]; exact min_self c)
        (fun y hy => hall y (by simp [hy]))

/-- A value vector whose range exceeds 1000 cannot have zero population
variance: zero variance forces every value to equal the mean, hence a zero
range.  This justifies the `if (!std) return` guard never blocking the
scaling rule when the range test holds. -/
theorem variance_ne_zero_of_range (values : List ℚ) (hne : values ≠ [])
    (hrange : maxQ values - minQ values > 1000) :
    meanQ (values.map fun v => (v - meanQ values) ^ 2) ≠ 0 := by
  intro h0
  set avg := meanQ values with havg
  have hlen : ((values.map fun v => (v - avg) ^ 2).length : ℚ) ≠ 0 := by
    simp only [List.length_map]
    exact_mod_cast fun h => hne (List.length_eq_zero.mp h)
  have hsum : (values.map fun v => (v - avg) ^ 2).sum = 0 := by
    rw [meanQ, div_eq_zero_iff] at h0
    rcases h0 with h | h
    · exact h
    · exact absurd h hlen
  have hall : ∀ v ∈ values, v = avg := by
    intro v hv
    have := list_sum_sq_zero _ hsum (fun x hx => by
      obtain ⟨w, -, rfl⟩ := List.mem_map.mp hx
      positivity) ((v - avg) ^ 2) (List.mem_map.mpr ⟨v, hv, rfl⟩)
    have hzero : v - avg = 0 := sq_eq_zero_iff.mp this
    linarith [hzero]
  obtain ⟨v0, vs, rfl⟩ := List.exists_cons_of_ne_nil hne
  have hmax : maxQ (v0 :: vs) = avg :=
    foldl_max_all_eq vs v0 avg (hall v0 (by simp)) (fun y hy => hall y (by simp [hy]))
  have hmin : minQ (v0 :: vs) = avg :=
    foldl_min_all_eq vs v0 avg (hall v0 (by simp)) (fun y hy => hall y (by simp [hy]))
  rw [hmax, hmin] at hrange
  linarith

/-
Membership of concrete emissions in a run.
-/

theorem encodePre_mem_emissions (rows : List Row) (ns : List (String × NumStat))
    (cs : List (String × CatInfo)) (col : String) (info : CatInfo)
    (hmem : (col, info) ∈ cs) (hcol : col ∈ (rows.headD []).map Prod.fst) :
    encodePre col info.unique ∈ emissions rows ns cs := by
  have hcat : encodePre col info.unique ∈ catBlock rows ((rows.headD []).map Prod.fst) cs := by
    simp only [catBlock, List.mem_flatMap]
    refine ⟨(col, info), hmem, ?_⟩
    unfold catPres
    rw [if_pos hcol]
    exact List.mem_append_left _ (List.mem_append_left _ (by simp))
  simp only [emissions, List.append_assoc, List.mem_append]
  exact Or.inr (Or.inr (Or.inr (Or.inr (Or.inr (Or.inr (Or.inl hcat))))))

theorem scalePre_mem_emissions (rows : List Row) (ns : List (String × NumStat))
    (cs : List (String × CatInfo)) (col : String) (stat : NumStat)
    (hnd : (ns.map Prod.fst).Nodup) (hmem : (col, stat) ∈ ns)
    (h5 : 5 ≤ stat.values.length)
    (hrange : maxQ stat.values - minQ stat.values > 1000) :
    scalePre col ∈ emissions rows ns cs := by
  have hlk : lookupStat ns col = stat := by
    rw [lookupStat, lookup_eq_of_mem ns col stat hnd hmem]; rfl
  have hne : stat.values ≠ [] := by
    intro h; rw [h] at h5; simp at h5
  have hvar : meanQ (stat.values.map fun v => (v - meanQ stat.values) ^ 2) ≠ 0 :=
    variance_ne_zero_of_range stat.values hne hrange
  have hssp : scalePre col ∈ skewScalePres ns col := by
    unfold skewScalePres
    rw [hlk]
    dsimp only
    rw [if_neg (by omega), if_neg hvar]
    exact List.mem_append_right _ (by rw [if_pos hrange]; simp)
  have hblk : scalePre col ∈ skewScaleBlock ns := by
    simp only [skewScaleBlock, List.mem_flatMap]
    exact ⟨col, List.mem_map.mpr ⟨(col, stat), hmem, rfl⟩, hssp⟩
  simp only [emissions, List.append_assoc, List.mem_append]
  exact Or.inr (Or.inr (Or.inl hblk))

/-
Concrete inputs used by counterexamples and witnesses.
-/

/-- An empty correlation matrix (never read by the generator). -/
def corrEmpty : CorrMatrix := ⟨[], []⟩

/-- Fallback suggestion for positional access in witnesses. -/
def sugFallback : Suggestion := ⟨"", "", "", [], .numeric, .low, 0, .Easy⟩

/-- A one-row table whose only column is `a`. -/
def rowsA : List Row := [[("a", Value.vNum 1)]]

/-- A categorical summary keyed by `b`, which is not a column of `rowsA`. -/
def csB : List (String × CatInfo) := [("b", ⟨3, []⟩)]

/-- Numeric stats for `a` with only two values but a range above 1000. -/
def nsShort : List (String × NumStat) := [("a", ⟨[0, 2000], 0, 0⟩)]

/-- Numeric stats for `a` with five values and a range above 1000. -/
def nsRange : List (String × NumStat) := [("a", ⟨[0, 1, 2, 3, 2000], 0, 0⟩)]

/-- A one-row table with `price` and `quantity` columns. -/
def rowsPQ : List Row := [[("price", Value.vNum 1), ("quantity", Value.vNum 2)]]

/-- A one-row table with a categorical `cat` column. -/
def rowsCat : List Row := [[("cat", Value.vStr "x")]]

/-- A categorical summary for the `cat` column of `rowsCat`. -/
def csCat : List (String × CatInfo) := [("cat", ⟨3, []⟩)]

/-
The claims.
-/

/-- C1.  Priority derivation is a pure function of impact and complexity: every
suggestion emitted by one run of the rule engine carries
`priorityFromImpact impact complexity` as its priority (no call site overrides
it), and that function sends impact ≥ 4 with Easy/Moderate complexity to
`high`, otherwise impact ≤ 2 to `low`, and everything else to `medium`; in
particular impact 5 with Easy is `high` and impact 1 is always `low`. -/
theorem c1_priority_derivation (rows : List Row) (ns : List (String × NumStat))
    (cs : List (String × CatInfo)) (corr : CorrMatrix) (s : Suggestion)
    (hs : s ∈ (generateFeatureSuggestions rows ns cs corr).suggestions) :
    s.priority = priorityFromImpact s.impact s.complexity ∧
    (4 ≤ s.impact ∧ (s.complexity = .Easy ∨ s.complexity = .Moderate) →
      s.priority = .high) ∧
    (¬(4 ≤ s.impact ∧ (s.complexity = .Easy ∨ s.complexity = .Moderate)) →
      s.impact ≤ 2 → s.priority = .low) ∧
    (¬(4 ≤ s.impact ∧ (s.complexity = .Easy ∨ s.complexity = .Moderate)) →
      ¬ s.impact ≤ 2 → s.priority = .medium) ∧
    (s.impact = 5 ∧ s.complexity = .Easy → s.priority = .high) ∧
    (s.impact = 1 → s.priority = .low) := by
  have hp : s.priority = priorityFromImpact s.impact s.complexity := by
    by_cases hie : rows.isEmpty
    · rw [generateFeatureSuggestions, if_pos hie] at hs
      cases hs
    · rw [generateFeatureSuggestions, if_neg hie] at hs
      dsimp only at hs
      rcases mem_foldl_addSuggestion_cases _ _ _ hs with h | ⟨p, hp2, hT, hE, hc, hcat, hi, hcx, hpr⟩
      · cases h
      · have hov := emissions_override_none rows ns cs p hp2
        rw [hpr, hov, Option.getD_none, hi, hcx]
  refine ⟨hp, ?_, ?_, ?_, ?_, ?_⟩
  · intro h
    rw [hp, priorityFromImpact, if_pos h]
  · intro hn h2
    rw [hp, priorityFromImpact, if_neg hn, if_pos h2]
  · intro hn h2
    rw [hp, priorityFromImpact, if_neg hn, if_neg h2]
  · rintro ⟨h5, hE⟩
    rw [hp, priorityFromImpact, if_pos ⟨by omega, Or.inl hE⟩]
  · intro h1
    have hn : ¬(4 ≤ s.impact ∧ (s.complexity = .Easy ∨ s.complexity = .Moderate)) :=
      fun h => by omega
    rw [hp, priorityFromImpact, if_neg hn, if_pos (by omega)]

/-- C2 (amended).  For every key of the categorical summary that is also a
column of the non-empty table's first row (the `columns.includes(col)` guard of
line 296), the run contains exactly one suggestion titled `Encode {col}`; it
has impact 5, complexity Easy for ≤ 10 unique values and Moderate otherwise,
and its example records the strategy chosen by the unique-value count:
≤ 10 one-hot, ≤ 20 ordinal, ≤ 50 target, > 50 frequency. -/
theorem c2_encoding_amended (rows : List Row) (ns : List (String × NumStat))
    (cs : List (String × CatInfo)) (corr : CorrMatrix) (col : String) (info : CatInfo)
    (hrows : rows ≠ []) (hmem : (col, info) ∈ cs) (hnd : (cs.map Prod.fst).Nodup)
    (hcol : col ∈ (rows.headD []).map Prod.fst) :
    ((generateFeatureSuggestions rows ns cs corr).suggestions.countP
        (fun s => s.title == "Encode " ++ col) = 1) ∧
    (∃ s ∈ (generateFeatureSuggestions rows ns cs corr).suggestions,
      s.title = "Encode " ++ col ∧ s.impact = 5 ∧
      s.complexity = (if info.unique ≤ 10 then .Easy else .Moderate) ∧
      s.exampleStr = col ++ " → " ++ encodingFor info.unique ∧ s.columns = [col]) ∧
    (∀ u : Nat,
      (u ≤ 10 → encodingFor u = "One-Hot Encoding") ∧
      (10 < u → u ≤ 20 → encodingFor u = "Ordinal Encoding") ∧
      (20 < u → u ≤ 50 → encodingFor u = "Target Encoding") ∧
      (50 < u → encodingFor u = "Frequency Encoding")) := by
  have hie : rows.isEmpty = false := by
    cases rows
    · exact absurd rfl hrows
    · rfl
  refine ⟨?_, ?_, ?_⟩
  · rw [generateFeatureSuggestions, if_neg (by simp [hie])]
    dsimp only
    rw [runSuggestions, countP_foldl_addSuggestion, List.countP_nil,
      countP_emissions_encode rows ns cs col hnd
        (List.mem_map.mpr ⟨(col, info), hmem, rfl⟩) hcol]
  · obtain ⟨s, hsmem, hT, hE, hc, hcat, hi, hcx, hpr⟩ :=
      mem_foldl_addSuggestion_of_mem (emissions rows ns cs) []
        (encodePre col info.unique) (encodePre_mem_emissions rows ns cs col info hmem hcol)
    refine ⟨s, ?_, hT, hi, hcx, hE, hc⟩
    rw [generateFeatureSuggestions, if_neg (by simp [hie])]
    exact hsmem
  · intro u
    refine ⟨fun h => ?_, fun h1 h2 => ?_, fun h1 h2 => ?_, fun h1 => ?_⟩
    · rw [encodingFor, if_pos h]
    · rw [encodingFor, if_neg (by omega), if_pos h2]
    · rw [encodingFor, if_neg (by omega), if_neg (by omega), if_pos h2]
    · rw [encodingFor, if_neg (by omega), if_neg (by omega), if_neg (by omega)]

set_option maxRecDepth 10000 in
set_option maxHeartbeats 1000000 in
/-- C2 (counterexample).  The claim as stated quantifies over every key of the
categorical summary, but a key absent from the first row's columns is skipped
by the guard of line 296: with summary key `b` and sole table column `a`, the
run emits no `Encode b` suggestion at all (here, no suggestion whatsoever). -/
theorem c2_encoding_counterexample :
    ("b", (⟨3, []⟩ : CatInfo)) ∈ csB ∧ rowsA ≠ [] ∧
    (generateFeatureSuggestions rowsA [] csB corrEmpty).suggestions.countP
      (fun s => s.title == "Encode " ++ "b") = 0 ∧
    (generateFeatureSuggestions rowsA [] csB corrEmpty).suggestions = [] := by
  with_unfolding_all decide

/-- C3 (amended).  For a non-empty table, every numeric column (with unique
stats keys) whose value vector has at least 5 entries — the
`values.length < 5` early return of line 181 — and satisfies max − min > 1000
receives a z-score standardization suggestion (`Scale {col}`) with impact 3 and
complexity Easy. -/
theorem c3_range_scaling_amended (rows : List Row) (ns : List (String × NumStat))
    (cs : List (String × CatInfo)) (corr : CorrMatrix) (col : String) (stat : NumStat)
    (hrows : rows ≠ []) (hnd : (ns.map Prod.fst).Nodup) (hmem : (col, stat) ∈ ns)
    (h5 : 5 ≤ stat.values.length)
    (hrange : maxQ stat.values - minQ stat.values > 1000) :
    ∃ s ∈ (generateFeatureSuggestions rows ns cs corr).suggestions,
      s.title = "Scale " ++ col ∧ s.impact = 3 ∧ s.complexity = .Easy ∧
      s.columns = [col] ∧
      s.exampleStr = col ++ "_zscore = (" ++ col ++ " - μ) / σ" := by
  have hie : rows.isEmpty = false := by
    cases rows
    · exact absurd rfl hrows
    · rfl
  obtain ⟨s, hsmem, hT, hE, hc, hcat, hi, hcx, hpr⟩ :=
    mem_foldl_addSuggestion_of_mem (emissions rows ns cs) [] (scalePre col)
      (scalePre_mem_emissions rows ns cs col stat hnd hmem h5 hrange)
  refine ⟨s, ?_, hT, hi, hcx, hc, hE⟩
  rw [generateFeatureSuggestions, if_neg (by simp [hie])]
  exact hsmem

set_option maxRecDepth 10000 in
set_option maxHeartbeats 1000000 in
/-- C3 (counterexample).  The claim as stated requires only max − min > 1000,
but the skew/scale loop returns before the range test when the column has
fewer than 5 values (line 181): for stats `a ↦ [0, 2000]` the range is 2000
yet the run contains no `Scale a` suggestion (here, none at all). -/
theorem c3_range_scaling_counterexample :
    ("a", (⟨[0, 2000], 0, 0⟩ : NumStat)) ∈ nsShort ∧
    maxQ [0, 2000] - minQ [0, 2000] > 1000 ∧ rowsA ≠ [] ∧
    (generateFeatureSuggestions rowsA nsShort [] corrEmpty).suggestions.countP
      (fun s => s.title == "Scale " ++ "a") = 0 ∧
    (generateFeatureSuggestions rowsA nsShort [] corrEmpty).suggestions = [] := by
  with_unfolding_all decide

/-- C4.  Suggestion ids are sequential across the entire run: the i-th
suggestion (0-based index i, 1-based position i+1) of any run has id
`{its own category}-{i+1}`, with the counter shared by all categories. -/
theorem c4_id_sequencing (rows : List Row) (ns : List (String × NumStat))
    (cs : List (String × CatInfo)) (corr : CorrMatrix) (i : Nat)
    (h : i < (generateFeatureSuggestions rows ns cs corr).suggestions.length) :
    ((generateFeatureSuggestions rows ns cs corr).suggestions.get ⟨i, h⟩).id
      = ((generateFeatureSuggestions rows ns cs corr).suggestions.get ⟨i, h⟩).category.str
        ++ "-" ++ toString (i + 1) := by
  cases rows with
  | nil => exact absurd h (by simp [generateFeatureSuggestions])
  | cons r rest =>
      exact foldl_addSuggestion_id (emissions (r :: rest) ns cs) []
        (fun j hj => absurd hj (by simp)) i h

/-- C5.  On an empty table the suggestion engine returns the neutral payload:
no suggestions, an all-zero tally, and no highlights. -/
theorem c5_empty_table (ns : List (String × NumStat)) (cs : List (String × CatInfo))
    (corr : CorrMatrix) :
    generateFeatureSuggestions [] ns cs corr
      = { suggestions := [], summary := ⟨0, 0, 0, 0⟩, highlight := [] } := rfl

/-- C10.  The summary tally partitions the run: total equals the number of
suggestions, the three buckets sum to the total, and each bucket counts
exactly the suggestions with that priority. -/
theorem c10_summary_partition (rows : List Row) (ns : List (String × NumStat))
    (cs : List (String × CatInfo)) (corr : CorrMatrix) :
    (generateFeatureSuggestions rows ns cs corr).summary.total
        = (generateFeatureSuggestions rows ns cs corr).suggestions.length ∧
    (generateFeatureSuggestions rows ns cs corr).summary.high
        + (generateFeatureSuggestions rows ns cs corr).summary.medium
        + (generateFeatureSuggestions rows ns cs corr).summary.low
        = (generateFeatureSuggestions rows ns cs corr).summary.total ∧
    (generateFeatureSuggestions rows ns cs corr).summary.high
        = (generateFeatureSuggestions rows ns cs corr).suggestions.countP
            (fun s => decide (s.priority = .high)) ∧
    (generateFeatureSuggestions rows ns cs corr).summary.medium
        = (generateFeatureSuggestions rows ns cs corr).suggestions.countP
            (fun s => decide (s.priority = .medium)) ∧
    (generateFeatureSuggestions rows ns cs corr).summary.low
        = (generateFeatureSuggestions rows ns cs corr).suggestions.countP
            (fun s => decide (s.priority = .low)) := by
  rw [generateFeatureSuggestions]
  split
  · exact ⟨rfl, rfl, rfl, rfl, rfl⟩
  · dsimp only
    rw [foldl_tallyStep]
    refine ⟨by simp, ?_, by simp, by simp, by simp⟩
    dsimp only
    rw [Nat.zero_add, Nat.zero_add, Nat.zero_add, Nat.zero_add]
    exact countP_priority_partitions _

/-- C6.  Previewer fallback: when a suggestion's lower-cased title contains
none of the six patterns the previewer knows (polynomial, normalize skewed,
discretize, combine, days between, length feature), the preview is the sample
itself — the first min(5, row count) rows — with no columns added or changed. -/
theorem c6_preview_fallback (ext : Ext) (s : Suggestion) (rows : List Row)
    (h1 : containsSub (toLowerStr s.title) "polynomial" = false)
    (h2 : containsSub (toLowerStr s.title) "normalize skewed" = false)
    (h3 : containsSub (toLowerStr s.title) "discretize" = false)
    (h4 : containsSub (toLowerStr s.title) "combine" = false)
    (h5 : containsSub (toLowerStr s.title) "days between" = false)
    (h6 : containsSub (toLowerStr s.title) "length feature" = false) :
    computePreviewRows ext s rows = rows.take 5 := by
  rw [computePreviewRows]
  simp [h1, h2, h3, h4, h5, h6]

/-- The combine-preview denominator `Number(r[b]) || 1` is never zero: the
default 1 replaces both NaN (a non-numeric coercion) and 0. -/
theorem numOr_one_ne_zero (ext : Ext) (v : Option Value) : numOr ext v 1 ≠ 0 := by
  rw [numOr]
  rcases h : toNum ext v with _ | q
  · norm_num
  · dsimp only
    split
    · norm_num
    · assumption

/-- With the denominator never zero, the residual `|| 1` guard inside the
division is dead code and the combine transform is the plain guarded ratio. -/
theorem combineRow_eq (ext : Ext) (a b : String) (r : Row) :
    combineRow ext a b r
      = setField r (a ++ "_" ++ b ++ "_ratio")
          (.vNum (round2 (numOr ext (r.lookup a) 0 / numOr ext (r.lookup b) 1))) := by
  rw [combineRow]
  rw [if_neg (numOr_one_ne_zero ext (r.lookup b))]

/-- C9.  The Combine preview transform is total: the denominator is coerced to
a number with 0 and non-numeric values replaced by 1, so it is never zero, and
on every sample row the ratio column holds the finite quotient — the
division-by-zero fallback inside the branch is unreachable. -/
theorem c9_combine_total (ext : Ext) (s : Suggestion) (rows : List Row)
    (a b : String) (rest : List String)
    (hcols : s.columns = a :: b :: rest) (ha : a ≠ "") (hrows : rows ≠ [])
    (h1 : containsSub (toLowerStr s.title) "polynomial" = false)
    (h2 : containsSub (toLowerStr s.title) "normalize skewed" = false)
    (h3 : containsSub (toLowerStr s.title) "discretize" = false)
    (h4 : containsSub (toLowerStr s.title) "combine" = true) :
    (∀ v : Option Value, numOr ext v 1 ≠ 0) ∧
    computePreviewRows ext s rows
      = (rows.take 5).map fun r =>
          setField r (a ++ "_" ++ b ++ "_ratio")
            (.vNum (round2 (numOr ext (r.lookup a) 0 / numOr ext (r.lookup b) 1))) := by
  refine ⟨numOr_one_ne_zero ext, ?_⟩
  obtain ⟨r0, rs, rfl⟩ := List.exists_cons_of_ne_nil hrows
  rw [computePreviewRows]
  dsimp only
  rw [hcols]
  dsimp only [List.headD]
  simp only [h1, h2, h3, h4, List.isEmpty_eq_true, List.map_eq_nil_iff, List.take_eq_nil_iff,
    Bool.false_eq_true, if_false, List.length_cons, true_and]
  rw [if_neg (by simp [ha]), if_pos (by omega)]
  simp only [List.map_map]
  apply List.map_congr_left
  intro r hr
  exact combineRow_eq ext a b r

/-- C7.  The previewer never mutates the ingested rows: in the heap model,
every branch of `computePreviewRowsH` only allocates fresh rows (the source
builds each output row with object-spread literals), so the original store is
a prefix of the resulting store — every pre-existing row object is unchanged. -/
theorem c7_preview_no_mutation (ext : Ext) (s : Suggestion) (st : Store)
    (input : List Nat) :
    ((computePreviewRowsH ext s st input).1.rows).take st.rows.length = st.rows := by
  have tl : ∀ extra : List Row, (st.rows ++ extra).take st.rows.length = st.rows :=
    fun extra => List.take_left st.rows extra
  have tl2 : ∀ e1 e2 : List Row, ((st.rows ++ e1) ++ e2).take st.rows.length = st.rows :=
    fun e1 e2 => by rw [List.append_assoc]; exact tl _
  rw [computePreviewRowsH]
  dsimp only [allocRows]
  split
  · exact tl _
  · split
    · exact tl2 _ _
    · split
      · exact tl2 _ _
      · split
        · exact tl2 _ _
        · split
          · split
            · exact tl2 _ _
            · exact tl _
          · split
            · split
              · exact tl2 _ _
              · exact tl _
            · split
              · exact tl2 _ _
              · exact tl _

/-- C8.  High-cardinality scoring: a summary entry passes the filter of
App.tsx line 91 exactly when its unique count exceeds half the row count, and
the score of line 92 is `100 − min(100, 100·highCard/max(1, columns))`, hence
always within [0, 100] and exactly 100 when no column is high-cardinality. -/
theorem c8_cardinality_score (cat : List (String × CatInfo)) (n c : Nat) :
    (0 ≤ cardinalityScore (highCardCols cat n) c ∧
      cardinalityScore (highCardCols cat n) c ≤ 100) ∧
    (highCardCols cat n = 0 → cardinalityScore (highCardCols cat n) c = 100) ∧
    (∀ kv : String × CatInfo, kv ∈ cat →
      (kv ∈ cat.filter (fun kv => (kv.2.unique : ℚ) > (n : ℚ) * (1 / 2)) ↔
        2 * kv.2.unique > n)) ∧
    (∀ h c2 : Nat, cardinalityScore h c2
        = 100 - min 100 ((100 * (h : ℚ)) / ((max 1 c2 : Nat) : ℚ))) := by
  have hx : ∀ h c2 : Nat, (0 : ℚ) ≤ ((h : ℚ) / ((max 1 c2 : Nat) : ℚ)) * 100 := by
    intro h c2
    positivity
  refine ⟨⟨?_, ?_⟩, ?_, ?_, ?_⟩
  · rw [cardinalityScore]
    linarith [min_le_left (100 : ℚ)
      (((highCardCols cat n : ℚ) / ((max 1 c : Nat) : ℚ)) * 100)]
  · rw [cardinalityScore]
    have h0 : (0 : ℚ) ≤ min 100 (((highCardCols cat n : ℚ) / ((max 1 c : Nat) : ℚ)) * 100) :=
      le_min (by norm_num) (hx (highCardCols cat n) c)
    linarith
  · intro h0
    rw [cardinalityScore, h0]
    norm_num
  · intro kv hkv
    rw [List.mem_filter]
    constructor
    · rintro ⟨-, hp⟩
      have hq : (kv.2.unique : ℚ) > (n : ℚ) * (1 / 2) := by simpa using hp
      have h2 : ((2 * kv.2.unique : Nat) : ℚ) > (n : ℚ) := by push_cast; linarith
      exact_mod_cast h2
    · intro h2
      refine ⟨hkv, ?_⟩
      have hq : ((2 * kv.2.unique : Nat) : ℚ) > (n : ℚ) := by exact_mod_cast h2
      simp only [decide_eq_true_eq]
      push_cast at hq ⊢
      linarith
  · intro h c2
    rw [cardinalityScore]
    ring_nf

/-
Witnesses: concrete instantiations of the hypothesis-bearing theorems.
-/

/-- Trivial external primitives for concrete preview evaluations. -/
def extZero : Ext := ⟨fun _ => 0, fun _ => 0, fun _ => none⟩

/-- A suggestion whose title matches no preview pattern. -/
def sugEncode : Suggestion :=
  ⟨"categorical-1", "Encode city", "", ["city"], .categorical, .high, 5, .Easy⟩

/-- A combine suggestion over the price/quantity columns. -/
def sugCombine : Suggestion :=
  ⟨"numeric-1", "Combine price & quantity", "", ["price", "quantity"], .numeric, .high, 4, .Easy⟩

set_option maxRecDepth 10000 in
theorem c1_priority_derivation_witness :
    ((generateFeatureSuggestions rowsPQ [] [] corrEmpty).suggestions.headD sugFallback).priority
      = PriorityLevel.high :=
  (c1_priority_derivation rowsPQ [] [] corrEmpty
      ((generateFeatureSuggestions rowsPQ [] [] corrEmpty).suggestions.headD sugFallback)
      (by with_unfolding_all decide)).2.1
    (by with_unfolding_all decide)

set_option maxRecDepth 10000 in
theorem c2_encoding_amended_witness :
    (generateFeatureSuggestions rowsCat [] csCat corrEmpty).suggestions.countP
      (fun s => s.title == "Encode " ++ "cat") = 1 :=
  (c2_encoding_amended rowsCat [] csCat corrEmpty "cat" ⟨3, []⟩
      (by with_unfolding_all decide) (by with_unfolding_all decide)
      (by with_unfolding_all decide) (by with_unfolding_all decide)).1

set_option maxRecDepth 10000 in
theorem c3_range_scaling_amended_witness :
    ∃ s ∈ (generateFeatureSuggestions rowsA nsRange [] corrEmpty).suggestions,
      s.title = "Scale " ++ "a" ∧ s.impact = 3 ∧ s.complexity = .Easy ∧
      s.columns = ["a"] ∧ s.exampleStr = "a" ++ "_zscore = (" ++ "a" ++ " - μ) / σ" :=
  c3_range_scaling_amended rowsA nsRange [] corrEmpty "a" ⟨[0, 1, 2, 3, 2000], 0, 0⟩
    (by with_unfolding_all decide) (by with_unfolding_all decide)
    (by with_unfolding_all decide) (by with_unfolding_all decide)
    (by with_unfolding_all decide)

set_option maxRecDepth 10000 in
theorem c4_id_sequencing_witness :
    ((generateFeatureSuggestions rowsPQ [] [] corrEmpty).suggestions.get
      ⟨0, by with_unfolding_all decide⟩).id = "numeric-1" := by
  rw [c4_id_sequencing rowsPQ [] [] corrEmpty 0 (by with_unfolding_all decide)]
  with_unfolding_all decide

set_option maxRecDepth 10000 in
theorem c6_preview_fallback_witness :
    computePreviewRows extZero sugEncode rowsCat = rowsCat.take 5 :=
  c6_preview_fallback extZero sugEncode rowsCat
    (by with_unfolding_all decide) (by with_unfolding_all decide)
    (by with_unfolding_all decide) (by with_unfolding_all decide)
    (by with_unfolding_all decide) (by with_unfolding_all decide)

set_option maxRecDepth 10000 in
theorem c8_cardinality_score_witness :
    highCardCols [("x", (⟨2, []⟩ : CatInfo))] 4 = 0 ∧
    cardinalityScore (highCardCols [("x", (⟨2, []⟩ : CatInfo))] 4) 1 = 100 :=
  ⟨by with_unfolding_all decide,
    (c8_cardinality_score [("x", (⟨2, []⟩ : CatInfo))] 4 1).2.1
      (by with_unfolding_all decide)⟩

set_option maxRecDepth 10000 in
theorem c9_combine_total_witness :
    computePreviewRows extZero sugCombine rowsPQ
      = (rowsPQ.take 5).map fun r =>
          setField r ("price" ++ "_" ++ "quantity" ++ "_ratio")
            (.vNum (round2 (numOr extZero (r.lookup "price") 0
              / numOr extZero (r.lookup "quantity") 1))) :=
  (c9_combine_total extZero sugCombine rowsPQ "price" "quantity" []
      (by with_unfolding_all decide) (by with_unfolding_all decide)
      (by with_unfolding_all decide) (by with_unfolding_all decide)
      (by with_unfolding_all decide) (by with_unfolding_all decide)
      (by with_unfolding_all decide)).2

end DHC
